import Mathlib

/-!
Shallow embedding of the Astro Blacksmith beat-store server
(`server.py`): the SQLite-backed catalog (`BeatsDatabase`), the folder
synchronizer (`sync_beats_from_folder`), and the request handlers for
beat lookup, inquiry submission and audio streaming
(`BeatStoreHandler`).  Machine state is an explicit `Db` value; sqlite
constraint violations are `Option` failures; the directory listing is an
`Option (List String)` (`none` models a missing directory, mirroring the
early return when `os.path.exists` fails).
-/

namespace AstroVault

/-- One row of the `beats` table (schema from `init_db`):
`id INTEGER PRIMARY KEY AUTOINCREMENT`, `title TEXT NOT NULL`,
`slug TEXT UNIQUE NOT NULL`, nullable `description`, `genre`, `bpm`,
`duration`, `file_name TEXT NOT NULL` (no UNIQUE constraint),
`file_type TEXT NOT NULL`, `created_at TIMESTAMP DEFAULT CURRENT_TIMESTAMP`. -/
structure Beat where
  id : Nat
  title : String
  slug : String
  description : Option String
  genre : Option String
  bpm : Option Int
  duration : Option Int
  file_name : String
  file_type : String
  created_at : Nat
deriving DecidableEq

/-- One row of the `exclusive_inquiries` table: `id` autoincrement,
`beat_id INTEGER NOT NULL` (foreign key declared, not enforced), `name`,
`email`, `offer` NOT NULL, `status TEXT DEFAULT 'new'`, `created_at`. -/
structure Inquiry where
  id : Nat
  beat_id : Int
  name : String
  email : String
  offer : String
  status : String
  created_at : Nat
deriving DecidableEq

/-- The persistent store: both tables in rowid order, the next
autoincrement identity for each, and a monotone clock that stands in for
`CURRENT_TIMESTAMP`. -/
structure Db where
  beats : List Beat
  nextBeatId : Nat
  inquiries : List Inquiry
  nextInquiryId : Nat
  time : Nat
deriving DecidableEq

/-- A freshly initialized database (`init_db` on a new file). -/
def emptyDb : Db := ⟨[], 1, [], 1, 0⟩

/-! ### String helpers (embeddings of the Python string operations used) -/

/-- Python `str.lower()` (ASCII model). -/
def strLower (s : String) : String := ⟨s.data.map Char.toLower⟩

/-- Python `str.endswith(suffix)`. -/
def strEndsWith (s suffix : String) : Bool := suffix.data.isSuffixOf s.data

/-- Python `str.startswith(p)`. -/
def strStartsWith (s p : String) : Bool := p.data.isPrefixOf s.data

/-- Python `c in s` for a single character. -/
def strContains (s : String) (c : Char) : Bool := s.data.contains c

/-- Python `str.replace(old, new)` for single-character arguments:
every occurrence of `old` is replaced by `new`, positions unchanged. -/
def replaceChar (old new : Char) (s : String) : String :=
  ⟨s.data.map (fun c => if c = old then new else c)⟩

/-- `os.path.splitext` on a bare file name (no path separator), on the
character list: split at the last dot, unless every character before
that dot is itself a dot (leading dots are not an extension). -/
def splitextList (l : List Char) : List Char × List Char :=
  match l.reverse.dropWhile (fun c => c != '.') with
  | [] => (l, [])
  | c :: preRev =>
    if preRev.all (fun d => d = '.') then (l, [])
    else (preRev.reverse, c :: (l.reverse.takeWhile (fun c => c != '.')).reverse)

/-- `os.path.splitext` on strings. -/
def splitext (s : String) : String × String :=
  (⟨(splitextList s.data).1⟩, ⟨(splitextList s.data).2⟩)

/-! ### Metadata derivation (`sync_beats_from_folder`, loop body) -/

/-- `title = os.path.splitext(file_name)[0]`. -/
def deriveTitle (file_name : String) : String := (splitext file_name).1

/-- `file_type = os.path.splitext(file_name)[1][1:].lower()`. -/
def deriveFileType (file_name : String) : String :=
  strLower ⟨(splitext file_name).2.data.drop 1⟩

/-- `slug = title.lower().replace(' ', '-').replace('_', '-')`. -/
def deriveSlug (title : String) : String :=
  replaceChar '_' '-' (replaceChar ' ' '-' (strLower title))

/-- The tuple `('.mp3', '.wav', '.m4a', '.flac', '.ogg')`. -/
def audio_extensions : List String := [".mp3", ".wav", ".m4a", ".flac", ".ogg"]

/-- `f.lower().endswith(audio_extensions)` — the filter applied to every
directory entry. -/
def isAudioFile (f : String) : Bool :=
  audio_extensions.any (fun e => strEndsWith (strLower f) e)

/-! ### Store writes -/

/-- `INSERT INTO beats (title, slug, description, genre, bpm, duration,
file_name, file_type) VALUES (...)` followed by `commit`; the only
constraint a typed row can violate is `slug TEXT UNIQUE`, in which case
sqlite raises (`none`).  On success returns `cursor.lastrowid` and the
new store (used by both `add_beat` and the sync loop, whose SQL is
identical). -/
def add_beat (db : Db) (title slug : String) (description genre : Option String)
    (bpm duration : Option Int) (file_name file_type : String) : Option (Nat × Db) :=
  if db.beats.any (fun b => decide (b.slug = slug)) then none
  else
    some (db.nextBeatId,
      { db with
        beats := db.beats ++
          [⟨db.nextBeatId, title, slug, description, genre, bpm, duration,
            file_name, file_type, db.time⟩],
        nextBeatId := db.nextBeatId + 1,
        time := db.time + 1 })

/-- `INSERT INTO exclusive_inquiries (beat_id, name, email, offer)
VALUES (...)`; `status` takes its `DEFAULT 'new'`; returns
`cursor.lastrowid`. -/
def save_inquiry (db : Db) (beat_id : Int) (name email offer : String) : Nat × Db :=
  (db.nextInquiryId,
   { db with
     inquiries := db.inquiries ++
       [⟨db.nextInquiryId, beat_id, name, email, offer, "new", db.time⟩],
     nextInquiryId := db.nextInquiryId + 1,
     time := db.time + 1 })

/-! ### Folder synchronization -/

/-- The `for file_name in files` loop of `sync_beats_from_folder`,
running inside a single connection: skip a file whose `file_name` is
already present (`SELECT id FROM beats WHERE file_name = ?` sees the
uncommitted inserts of the same transaction), otherwise derive metadata
and insert.  The first failing insert raises out of the loop: `none`. -/
def syncGo : Db → List String → Option Db
  | db, [] => some db
  | db, f :: rest =>
    if db.beats.any (fun b => decide (b.file_name = f)) then syncGo db rest
    else
      match add_beat db (deriveTitle f) (deriveSlug (deriveTitle f))
          none none none none f (deriveFileType f) with
      | none => none
      | some (_, db1) => syncGo db1 rest

/-- `sync_beats_from_folder`: return untouched when the folder is
missing; otherwise filter the listing by extension and run the insert
loop.  The `with sqlite3.connect(...)` context manager commits on
normal exit and rolls back when an exception escapes the loop, and the
surrounding `try/except` swallows that exception — so a failing pass
leaves the store exactly as it was. -/
def sync_beats_from_folder (db : Db) (dir : Option (List String)) : Db :=
  match dir with
  | none => db
  | some entries =>
    match syncGo db (entries.filter isAudioFile) with
    | some db1 => db1
    | none => db

/-! ### Reads -/

/-- Insert a beat into a list sorted by `created_at` descending. -/
def insertDesc (b : Beat) : List Beat → List Beat
  | [] => [b]
  | c :: cs => if c.created_at ≤ b.created_at then b :: c :: cs else c :: insertDesc b cs

/-- `SELECT * FROM beats ORDER BY created_at DESC` (timestamps from the
monotone clock are distinct, so the order is well defined). -/
def orderDesc (l : List Beat) : List Beat := l.foldr insertDesc []

/-- `get_all_beats`: first `sync_beats_from_folder`, then the ordered
select; returns the rows together with the store left behind. -/
def get_all_beats (db : Db) (dir : Option (List String)) : List Beat × Db :=
  (orderDesc (sync_beats_from_folder db dir).beats, sync_beats_from_folder db dir)

/-- `SELECT * FROM beats WHERE id = ?`. -/
def get_beat_by_id (db : Db) (beat_id : Int) : Option Beat :=
  db.beats.find? (fun b => decide ((b.id : Int) = beat_id))

/-! ### HTTP-facing operations -/

/-- Model of Python built-in `int(str)` (ASCII): optional surrounding
whitespace, an optional single sign, then one or more decimal digits;
anything else raises `ValueError` (`none`). -/
def digitsVal (l : List Char) : Option Nat :=
  match l with
  | [] => none
  | ds =>
    if ds.all Char.isDigit then
      some (ds.foldl (fun n c => n * 10 + (c.toNat - 48)) 0)
    else none

def pyInt (s : String) : Option Int :=
  match ((s.data.dropWhile Char.isWhitespace).reverse.dropWhile Char.isWhitespace).reverse with
  | '-' :: ds => (digitsVal ds).map (fun n => -(n : Int))
  | '+' :: ds => (digitsVal ds).map (fun n => (n : Int))
  | ds => (digitsVal ds).map (fun n => (n : Int))

/-- Outcome of `handle_get_beat`: 200 with the row, 404 when the lookup
returns nothing, or 500 from the blanket `except` (which is where a
`ValueError` from `int(beat_id)` lands). -/
inductive GetBeatResponse
  | ok (beat : Beat)
  | notFound
  | internalError
deriving DecidableEq

/-- `handle_get_beat(beat_id)`: `int(beat_id)` inside the `try` — a parse
failure is caught by `except Exception` and surfaced as
`send_error(500)`; an absent row is `send_error(404)`. -/
def handle_get_beat (db : Db) (beat_id : String) : GetBeatResponse :=
  match pyInt beat_id with
  | none => .internalError
  | some i =>
    match get_beat_by_id db i with
    | none => .notFound
    | some b => .ok b

/-- The decoded JSON body of `POST /api/inquiry`: `none` in a field means
the key is absent from the object (the code only tests key presence). -/
structure InquiryRequest where
  beatId : Option Int
  name : Option String
  email : Option String
  offer : Option String
deriving DecidableEq

/-- Outcome of `handle_inquiry_submission`: the two 400 branches and the
200 branch carrying `inquiryId`. -/
inductive InquiryResponse
  | missingFields
  | invalidEmail
  | ok (inquiryId : Nat)
deriving DecidableEq

/-- `handle_inquiry_submission`: `all(field in data for field in
required_fields)` checks key presence only; then
`'@' not in data['email'] or '.' not in data['email']` rejects; otherwise
`save_inquiry` runs and the new identity is returned. -/
def handle_inquiry_submission (db : Db) (req : InquiryRequest) : InquiryResponse × Db :=
  match req.beatId, req.name, req.email, req.offer with
  | some beatId, some name, some email, some offer =>
    if !(strContains email '@') || !(strContains email '.') then (.invalidEmail, db)
    else
      (InquiryResponse.ok (save_inquiry db beatId name email offer).1,
       (save_inquiry db beatId name email offer).2)
  | _, _, _, _ => (.missingFields, db)

/-! ### Path resolution (`os.path` posix model) and the audio endpoint -/

/-- `os.path.join(a, b)` (posix): an absolute second argument replaces
the first; otherwise a separator is added unless one is already there. -/
def pjoin (a b : String) : String :=
  if strStartsWith b "/" then b
  else if a = "" || strEndsWith a "/" then a ++ b
  else a ++ "/" ++ b

/-- Python `str.split` on the separator character: keeps empty pieces. -/
def splitSlash : List Char → List (List Char)
  | [] => [[]]
  | c :: cs =>
    match splitSlash cs with
    | [] => [[c]]
    | h :: t => if c = '/' then [] :: h :: t else (c :: h) :: t

/-- Join path components with the separator. -/
def joinSlash : List (List Char) → List Char
  | [] => []
  | [x] => x
  | x :: xs => x ++ '/' :: joinSlash xs

/-- One step of the component walk inside `posixpath.normpath`: drop
empty and dot components, pop on a resolvable `..`, keep it otherwise. -/
def normStep (initialSlashes : Nat) (acc : List (List Char)) (comp : List Char) :
    List (List Char) :=
  if comp = [] ∨ comp = ['.'] then acc
  else if comp ≠ ['.', '.'] ∨ (initialSlashes = 0 ∧ acc = []) ∨
      (acc ≠ [] ∧ acc.getLast? = some ['.', '.']) then acc ++ [comp]
  else if acc ≠ [] then acc.dropLast
  else acc

/-- `posixpath.normpath`: collapse separators and resolve `.` and `..`
components lexically (two leading slashes are preserved, three or more
collapse to one). -/
def normpath (p : String) : String :=
  if p = "" then "."
  else
    let cs := p.data
    let initialSlashes : Nat :=
      if ['/', '/'].isPrefixOf cs ∧ ¬ ['/', '/', '/'].isPrefixOf cs then 2
      else if ['/'].isPrefixOf cs then 1 else 0
    let res : List Char :=
      List.replicate initialSlashes '/' ++
        joinSlash ((splitSlash cs).foldl (normStep initialSlashes) [])
    if res = [] then "." else ⟨res⟩

/-- `os.path.abspath`: join onto the working directory when relative,
then normalize. -/
def abspath (cwd p : String) : String :=
  if strStartsWith p "/" then normpath p else normpath (pjoin cwd p)

/-- Outcome of `handle_audio_stream`: the 403 traversal rejection, the
404 for a file absent on disk, or 200 with the file bytes (content type
and length headers elided — no claim concerns them). -/
inductive AudioResponse
  | forbidden
  | notFound
  | ok (bytes : List Nat)
deriving DecidableEq

/-- `handle_audio_stream(file_name)` with the filesystem modelled as a
map from resolved absolute path to file bytes: join the requested name
onto the beats folder, reject with 403 unless the absolute path string
starts with the absolute folder path, then 404 or the bytes. -/
def handle_audio_stream (fs : String → Option (List Nat)) (cwd root file_name : String) :
    AudioResponse :=
  if !(strStartsWith (abspath cwd (pjoin root file_name)) (abspath cwd root)) then
    .forbidden
  else
    match fs (abspath cwd (pjoin root file_name)) with
    | none => .notFound
    | some bytes => .ok bytes

/-- Modelled from the spec: a resolved path lies outside a directory
when it is neither the directory itself nor strictly below it. -/
def resolvesOutside (root resolved : String) : Bool :=
  !(resolved = root || strStartsWith resolved (root ++ "/"))

/-! ### Helper lemmas about the store and the sync loop -/

/-- Number of rows of a beats table carrying a given `file_name`. -/
def countFile (l : List Beat) (f : String) : Nat :=
  (l.filter (fun b => decide (b.file_name = f))).length

theorem countFile_append (l1 l2 : List Beat) (f : String) :
    countFile (l1 ++ l2) f = countFile l1 f + countFile l2 f := by
  simp [countFile, List.filter_append]

theorem countFile_singleton (b : Beat) (f : String) :
    countFile [b] f = if b.file_name = f then 1 else 0 := by
  simp only [countFile, List.filter]
  split <;> simp_all

theorem countFile_pos_iff (l : List Beat) (f : String) :
    0 < countFile l f ↔ ∃ b ∈ l, b.file_name = f := by
  rw [countFile, ← List.countP_eq_length_filter, List.countP_pos_iff]
  simp

theorem any_file_iff_countFile (l : List Beat) (f : String) :
    (l.any (fun b => decide (b.file_name = f)) = true) ↔ 0 < countFile l f := by
  rw [countFile_pos_iff, List.any_eq_true]
  simp

theorem add_beat_eq_some {db : Db} {title slug : String}
    {description genre : Option String} {bpm duration : Option Int}
    {file_name file_type : String} {i : Nat} {db2 : Db}
    (h : add_beat db title slug description genre bpm duration file_name file_type =
      some (i, db2)) :
    i = db.nextBeatId ∧
      db2 = { db with
        beats := db.beats ++
          [⟨db.nextBeatId, title, slug, description, genre, bpm, duration,
            file_name, file_type, db.time⟩],
        nextBeatId := db.nextBeatId + 1,
        time := db.time + 1 } := by
  unfold add_beat at h
  split at h
  · exact absurd h (by simp)
  · simp only [Option.some.injEq, Prod.mk.injEq] at h
    exact ⟨h.1.symm, h.2.symm⟩

theorem add_beat_none_iff (db : Db) (title slug : String)
    (description genre : Option String) (bpm duration : Option Int)
    (file_name file_type : String) :
    add_beat db title slug description genre bpm duration file_name file_type = none ↔
      ∃ b ∈ db.beats, b.slug = slug := by
  unfold add_beat
  split <;> rename_i h
  · simpa [List.any_eq_true] using h
  · simp only [List.any_eq_true, decide_eq_true_eq] at h
    simp [h]

theorem syncGo_count_pos : ∀ (fs : List String) (db db2 : Db) (f : String),
    syncGo db fs = some db2 → 0 < countFile db.beats f →
    countFile db2.beats f = countFile db.beats f := by
  intro fs
  induction fs with
  | nil =>
    intro db db2 f h _
    simp only [syncGo, Option.some.injEq] at h
    subst h; rfl
  | cons g rest ih =>
    intro db db2 f h hp
    simp only [syncGo] at h
    by_cases hg : db.beats.any (fun b => decide (b.file_name = g)) = true
    · rw [if_pos hg] at h
      exact ih db db2 f h hp
    · rw [if_neg hg] at h
      cases hab : add_beat db (deriveTitle g) (deriveSlug (deriveTitle g))
          none none none none g (deriveFileType g) with
      | none => rw [hab] at h; cases h
      | some pr =>
        obtain ⟨i, db1⟩ := pr
        rw [hab] at h
        obtain ⟨-, hdb1⟩ := add_beat_eq_some hab
        have hgf : g ≠ f := by
          intro e
          subst e
          exact hg ((any_file_iff_countFile db.beats g).mpr hp)
        have hc1 : countFile db1.beats f = countFile db.beats f := by
          subst hdb1
          simp [countFile_append, countFile_singleton, hgf]
        rw [← hc1]
        exact ih db1 db2 f h (by rw [hc1]; exact hp)

theorem syncGo_count_zero : ∀ (fs : List String) (db db2 : Db) (f : String),
    syncGo db fs = some db2 → countFile db.beats f = 0 → f ∈ fs →
    countFile db2.beats f = 1 := by
  intro fs
  induction fs with
  | nil => intro db db2 f _ _ hm; cases hm
  | cons g rest ih =>
    intro db db2 f h h0 hm
    simp only [syncGo] at h
    by_cases hg : db.beats.any (fun b => decide (b.file_name = g)) = true
    · rw [if_pos hg] at h
      have hgf : g ≠ f := by
        intro e
        subst e
        have := (any_file_iff_countFile db.beats g).mp hg
        omega
      have hmr : f ∈ rest := by
        cases hm with
        | head => exact absurd rfl hgf
        | tail _ hmr => exact hmr
      exact ih db db2 f h h0 hmr
    · rw [if_neg hg] at h
      cases hab : add_beat db (deriveTitle g) (deriveSlug (deriveTitle g))
          none none none none g (deriveFileType g) with
      | none => rw [hab] at h; cases h
      | some pr =>
        obtain ⟨i, db1⟩ := pr
        rw [hab] at h
        obtain ⟨-, hdb1⟩ := add_beat_eq_some hab
        by_cases hgf : g = f
        · subst hgf
          have hc1 : countFile db1.beats g = 1 := by
            subst hdb1
            simp [countFile_append, countFile_singleton, h0]
          rw [syncGo_count_pos rest db1 db2 g h (by omega), hc1]
        · have hc1 : countFile db1.beats f = 0 := by
            subst hdb1
            simp [countFile_append, countFile_singleton, h0, hgf]
          have hmr : f ∈ rest := by
            cases hm with
            | head => exact absurd rfl hgf
            | tail _ hmr => exact hmr
          exact ih db1 db2 f h hc1 hmr

theorem syncGo_skip_all : ∀ (fs : List String) (db : Db),
    (∀ f ∈ fs, 0 < countFile db.beats f) → syncGo db fs = some db := by
  intro fs
  induction fs with
  | nil => intro db _; rfl
  | cons g rest ih =>
    intro db hall
    have hg : db.beats.any (fun b => decide (b.file_name = g)) = true :=
      (any_file_iff_countFile db.beats g).mpr (hall g (List.mem_cons_self g rest))
    simp only [syncGo, if_pos hg]
    exact ih db (fun f hf => hall f (List.mem_cons_of_mem g hf))

theorem syncGo_covers {fs : List String} {db db2 : Db}
    (h : syncGo db fs = some db2) : ∀ f ∈ fs, 0 < countFile db2.beats f := by
  intro f hf
  cases hc : countFile db.beats f with
  | zero => rw [syncGo_count_zero fs db db2 f h hc hf]; omega
  | succ n => rw [syncGo_count_pos fs db db2 f h (by omega), hc]; omega

/-- Every row present after a successful pass of the insert loop was
either already there, or is a row freshly derived from a file name of
the processed list. -/
theorem syncGo_mem : ∀ (fs : List String) (db db2 : Db),
    syncGo db fs = some db2 → ∀ b ∈ db2.beats,
      b ∈ db.beats ∨
        (b.file_name ∈ fs ∧ b.title = deriveTitle b.file_name ∧
         b.slug = deriveSlug (deriveTitle b.file_name) ∧
         b.file_type = deriveFileType b.file_name ∧
         b.description = none ∧ b.genre = none ∧ b.bpm = none ∧ b.duration = none) := by
  intro fs
  induction fs with
  | nil =>
    intro db db2 h b hb
    simp only [syncGo, Option.some.injEq] at h
    subst h
    exact Or.inl hb
  | cons g rest ih =>
    intro db db2 h b hb
    simp only [syncGo] at h
    by_cases hg : db.beats.any (fun b => decide (b.file_name = g)) = true
    · rw [if_pos hg] at h
      rcases ih db db2 h b hb with hin | ⟨hm, hrest⟩
      · exact Or.inl hin
      · exact Or.inr ⟨List.mem_cons_of_mem g hm, hrest⟩
    · rw [if_neg hg] at h
      cases hab : add_beat db (deriveTitle g) (deriveSlug (deriveTitle g))
          none none none none g (deriveFileType g) with
      | none => rw [hab] at h; cases h
      | some pr =>
        obtain ⟨i, db1⟩ := pr
        rw [hab] at h
        obtain ⟨-, hdb1⟩ := add_beat_eq_some hab
        rcases ih db1 db2 h b hb with hin | ⟨hm, hrest⟩
        · rw [hdb1] at hin
          simp only [List.mem_append, List.mem_singleton] at hin
          rcases hin with hin | rfl
          · exact Or.inl hin
          · exact Or.inr ⟨List.mem_cons_self g rest, rfl, rfl, rfl, rfl, rfl, rfl, rfl⟩
        · exact Or.inr ⟨List.mem_cons_of_mem g hm, hrest⟩

theorem sync_eq_of_go_none {db : Db} {entries : List String}
    (h : syncGo db (entries.filter isAudioFile) = none) :
    sync_beats_from_folder db (some entries) = db := by
  show (match syncGo db (entries.filter isAudioFile) with
        | some db1 => db1
        | none => db) = db
  rw [h]

theorem sync_eq_of_go_some {db db1 : Db} {entries : List String}
    (h : syncGo db (entries.filter isAudioFile) = some db1) :
    sync_beats_from_folder db (some entries) = db1 := by
  show (match syncGo db (entries.filter isAudioFile) with
        | some db1 => db1
        | none => db) = db1
  rw [h]

/-! ### Lemmas about metadata derivation -/

theorem dropWhile_head_false {α : Type} (p : α → Bool) :
    ∀ (l : List α) (c : α) (cs : List α), l.dropWhile p = c :: cs → p c = false := by
  intro l
  induction l with
  | nil => intro c cs h; cases h
  | cons a as ih =>
    intro c cs h
    rw [List.dropWhile_cons] at h
    by_cases hp : p a = true
    · rw [if_pos hp] at h
      exact ih c cs h
    · rw [if_neg hp] at h
      injection h with h1 _
      subst h1
      simpa using hp

theorem splitextList_append (l : List Char) :
    (splitextList l).1 ++ (splitextList l).2 = l := by
  unfold splitextList
  split
  · simp
  · rename_i c preRev hd
    split
    · simp
    · simp only
      have h1 : l.reverse.takeWhile (fun c => c != '.') ++ (c :: preRev) = l.reverse := by
        rw [← hd, List.takeWhile_append_dropWhile]
      have h2 := congrArg List.reverse h1
      rw [List.reverse_append, List.reverse_cons, List.reverse_reverse] at h2
      rw [List.append_assoc, List.singleton_append] at h2
      exact h2

theorem splitextList_ext_tail (l : List Char) :
    ∀ c ∈ (splitextList l).2.drop 1, c ≠ '.' := by
  unfold splitextList
  split
  · intro c hc
    simp at hc
  · rename_i c preRev hd
    split
    · intro d hd2
      simp at hd2
    · intro d hd2
      simp only [List.drop_succ_cons, List.drop_zero, List.mem_reverse] at hd2
      have := List.mem_takeWhile_imp hd2
      simpa using this

theorem splitextList_ext_head (l : List Char) :
    (splitextList l).2 = [] ∨ ∃ t, (splitextList l).2 = '.' :: t := by
  unfold splitextList
  split
  · exact Or.inl rfl
  · rename_i c preRev hd
    split
    · exact Or.inl rfl
    · have hc := dropWhile_head_false (fun c => c != '.') l.reverse c preRev hd
      have hcd : c = '.' := by simpa using hc
      exact Or.inr ⟨(l.reverse.takeWhile (fun c => c != '.')).reverse, by rw [hcd]⟩

theorem splitext_append (s : String) : (splitext s).1 ++ (splitext s).2 = s := by
  have h := splitextList_append s.data
  calc (splitext s).1 ++ (splitext s).2
      = ⟨(splitextList s.data).1 ++ (splitextList s.data).2⟩ := rfl
    _ = ⟨s.data⟩ := by rw [h]
    _ = s := rfl

/-- Modelled from the spec: the slug is the title lower-cased, with each
space and each underscore independently replaced by a hyphen at its
original position. -/
def slugSpec (title : String) : String :=
  ⟨(strLower title).data.map (fun c => if c = ' ' ∨ c = '_' then '-' else c)⟩

theorem deriveSlug_eq_slugSpec (t : String) : deriveSlug t = slugSpec t := by
  unfold deriveSlug slugSpec replaceChar
  simp only [List.map_map]
  apply congrArg String.mk
  apply List.map_congr_left
  intro c _
  simp only [Function.comp]
  by_cases h1 : c = ' '
  · subst h1; decide
  · by_cases h2 : c = '_'
    · subst h2; decide
    · simp [h1, h2]

/-! ### Example data used by concrete theorems -/

/-- A store holding one beat with `file_name` `f.mp3` and slug `a`. -/
def dbWithF : Db := ⟨[⟨1, "t", "a", none, none, none, none, "f.mp3", "mp3", 0⟩], 2, [], 1, 1⟩

/-- The row produced by cataloguing `My Beat_01.MP3` into a fresh store. -/
def exampleBeat : Beat :=
  ⟨1, "My Beat_01", "my-beat-01", none, none, none, none, "My Beat_01.MP3", "mp3", 0⟩

/-- The row produced by cataloguing `track.MP3` into a fresh store. -/
def trackBeat : Beat := ⟨1, "track", "track", none, none, none, none, "track.MP3", "mp3", 0⟩

/-- A filesystem holding one file, at resolved path `/srv/beats2/x`. -/
def fs8 : String → Option (List Nat) :=
  fun p => if p = "/srv/beats2/x" then some [1, 2, 3] else none

/-- An empty filesystem. -/
def fsEmpty : String → Option (List Nat) := fun _ => none

/-! ### Claim theorems -/

/-- C1 (code behavior at the failing input): on a fresh store, a sync
pass over a directory holding `a b.mp3`, `a_b.mp3` (whose slugs both
normalize to `a-b`) and the independently-named `c.mp3` catalogs
nothing at all: the collision exception escapes the per-file loop, the
connection context rolls the transaction back and the outer handler
swallows the error, so not even `c.mp3` has a row afterwards —
contradicting the claimed skip-and-continue policy. -/
theorem c1_collision_aborts_whole_pass :
    sync_beats_from_folder emptyDb (some ["a b.mp3", "a_b.mp3", "c.mp3"]) = emptyDb ∧
    countFile (sync_beats_from_folder emptyDb
      (some ["a b.mp3", "a_b.mp3", "c.mp3"])).beats "c.mp3" = 0 := by
  decide

/-- C2 (counterexample): `add_beat` does not fail when only `file_name`
is a duplicate — the schema has no uniqueness constraint on it.  A
second insert reusing `f.mp3` under a fresh slug succeeds. -/
theorem c2_counterexample :
    add_beat emptyDb "t" "a" none none none none "f.mp3" "mp3" = some (1, dbWithF) ∧
    (∃ b ∈ dbWithF.beats, b.file_name = "f.mp3") ∧
    (add_beat dbWithF "t2" "b" none none none none "f.mp3" "mp3").isSome = true := by
  decide

/-- C2 (amended): the insert fails with a constraint violation exactly
when the slug already exists — slug uniqueness is the only uniqueness
constraint the schema declares — and on success it returns the newly
assigned identity with the row appended. -/
theorem c2_insert_unique_slug_only (db : Db) (title slug : String)
    (description genre : Option String) (bpm duration : Option Int)
    (file_name file_type : String) :
    ((∃ b ∈ db.beats, b.slug = slug) →
        add_beat db title slug description genre bpm duration file_name file_type = none) ∧
    ((∀ b ∈ db.beats, b.slug ≠ slug) →
        add_beat db title slug description genre bpm duration file_name file_type =
          some (db.nextBeatId,
            { db with
              beats := db.beats ++
                [⟨db.nextBeatId, title, slug, description, genre, bpm, duration,
                  file_name, file_type, db.time⟩],
              nextBeatId := db.nextBeatId + 1,
              time := db.time + 1 })) := by
  constructor
  · intro h
    exact (add_beat_none_iff db title slug description genre bpm duration
      file_name file_type).mpr h
  · intro h
    unfold add_beat
    rw [if_neg ?hc]
    case hc =>
      intro ha
      obtain ⟨b, hb, hp⟩ := List.any_eq_true.mp ha
      exact h b hb (of_decide_eq_true hp)

/-- C2 (witness): inserting into a fresh store with a fresh slug
succeeds and returns identity 1. -/
theorem c2_witness :
    add_beat emptyDb "Night Drive" "night-drive" none none none none
      "Night Drive.mp3" "mp3" =
      some (1, ⟨[⟨1, "Night Drive", "night-drive", none, none, none, none,
        "Night Drive.mp3", "mp3", 0⟩], 2, [], 1, 1⟩) :=
  (c2_insert_unique_slug_only emptyDb "Night Drive" "night-drive" none none none none
    "Night Drive.mp3" "mp3").2 (by decide)

/-- C3 (counterexample): after a sync over a directory holding the two
colliding audio files `a x.mp3` and `a_x.mp3`, the store holds zero
rows for `a x.mp3` even though that file is present in the directory —
refuting the claimed exactly-one-row-per-fileName invariant. -/
theorem c3_counterexample :
    countFile (sync_beats_from_folder emptyDb
      (some ["a x.mp3", "a_x.mp3"])).beats "a x.mp3" = 0 := by
  decide

/-- C3 (amended): sync is idempotent — a second pass over the unchanged
directory leaves the store exactly as the first left it — and when a
pass completes without an insertion failure, every audio file of the
directory has exactly one row afterwards, provided it had at most one
before (skipping already-cataloged files via the fileName lookup). -/
theorem c3_sync_idempotent (db : Db) (dir : Option (List String)) :
    sync_beats_from_folder (sync_beats_from_folder db dir) dir =
      sync_beats_from_folder db dir ∧
    (∀ entries f, dir = some entries → f ∈ entries.filter isAudioFile →
      countFile db.beats f ≤ 1 →
      (syncGo db (entries.filter isAudioFile)).isSome = true →
      countFile (sync_beats_from_folder db dir).beats f = 1) := by
  constructor
  · cases dir with
    | none => rfl
    | some entries =>
      cases hGo : syncGo db (entries.filter isAudioFile) with
      | none => rw [sync_eq_of_go_none hGo, sync_eq_of_go_none hGo]
      | some db1 =>
        rw [sync_eq_of_go_some hGo]
        exact sync_eq_of_go_some (syncGo_skip_all _ db1 (syncGo_covers hGo))
  · rintro entries f rfl hf hle hs
    cases hGo : syncGo db (entries.filter isAudioFile) with
    | none => rw [hGo] at hs; simp at hs
    | some db1 =>
      rw [sync_eq_of_go_some hGo]
      cases hc : countFile db.beats f with
      | zero => exact syncGo_count_zero _ db db1 f hGo hc hf
      | succ n =>
        rw [syncGo_count_pos _ db db1 f hGo (by omega), hc]
        rw [hc] at hle
        omega

/-- C3 (witness): syncing a fresh store against a directory holding
`x.mp3` is idempotent and leaves exactly one row for `x.mp3`. -/
theorem c3_witness :
    sync_beats_from_folder (sync_beats_from_folder emptyDb (some ["x.mp3"]))
      (some ["x.mp3"]) = sync_beats_from_folder emptyDb (some ["x.mp3"]) ∧
    countFile (sync_beats_from_folder emptyDb (some ["x.mp3"])).beats "x.mp3" = 1 :=
  ⟨(c3_sync_idempotent emptyDb (some ["x.mp3"])).1,
   (c3_sync_idempotent emptyDb (some ["x.mp3"])).2 ["x.mp3"] "x.mp3" rfl
     (by decide) (by decide) (by decide)⟩

/-- C4 (counterexample): a request whose `name` and `offer` are present
but empty strings is not rejected — the handler only tests key
presence and the email characters — so a row is written with empty
fields, contrary to the claimed missing-or-empty validation. -/
theorem c4_counterexample :
    handle_inquiry_submission emptyDb ⟨some 1, some "", some "a@b.com", some ""⟩ =
      (.ok 1, ⟨[], 1, [⟨1, 1, "", "a@b.com", "", "new", 0⟩], 2, 1⟩) := by
  decide

/-- C4 (amended): `submitInquiry` fails writing no row when one of the
four keys is absent, or when the email lacks an `@` or a `.` character
(an empty email fails that character test, but other empty-but-present
fields pass); otherwise it writes exactly one row with status `new`
and returns the newly assigned identity. -/
theorem c4_inquiry_validation (db : Db) (req : InquiryRequest) :
    ((req.beatId = none ∨ req.name = none ∨ req.email = none ∨ req.offer = none) →
        handle_inquiry_submission db req = (.missingFields, db)) ∧
    (∀ bd nm em off, req = ⟨some bd, some nm, some em, some off⟩ →
      ((strContains em '@' = false ∨ strContains em '.' = false) →
          handle_inquiry_submission db req = (.invalidEmail, db)) ∧
      (strContains em '@' = true → strContains em '.' = true →
          handle_inquiry_submission db req =
            (.ok db.nextInquiryId,
             { db with
               inquiries := db.inquiries ++
                 [⟨db.nextInquiryId, bd, nm, em, off, "new", db.time⟩],
               nextInquiryId := db.nextInquiryId + 1,
               time := db.time + 1 }))) := by
  obtain ⟨bd0, nm0, em0, off0⟩ := req
  constructor
  · intro h
    rcases bd0 with _ | bd <;> rcases nm0 with _ | nm <;> rcases em0 with _ | em <;>
      rcases off0 with _ | off <;> first | rfl | simp at h
  · rintro bd nm em off heq
    simp only [InquiryRequest.mk.injEq, Option.some.injEq] at heq
    obtain ⟨rfl, rfl, rfl, rfl⟩ := heq
    constructor
    · intro h
      rcases h with h | h <;> simp [handle_inquiry_submission, h]
    · intro h1 h2
      simp [handle_inquiry_submission, h1, h2, save_inquiry]

/-- C4 (witness): a fully populated request with a well-formed email
writes exactly one row with status `new` and returns identity 1. -/
theorem c4_witness :
    handle_inquiry_submission emptyDb ⟨some 2, some "Ada", some "ada@ex.com", some "500"⟩ =
      (.ok emptyDb.nextInquiryId,
       { emptyDb with
         inquiries := emptyDb.inquiries ++
           [⟨emptyDb.nextInquiryId, 2, "Ada", "ada@ex.com", "500", "new", emptyDb.time⟩],
         nextInquiryId := emptyDb.nextInquiryId + 1,
         time := emptyDb.time + 1 }) :=
  ((c4_inquiry_validation emptyDb ⟨some 2, some "Ada", some "ada@ex.com", some "500"⟩).2
      2 "Ada" "ada@ex.com" "500" rfl).2 (by decide) (by decide)

/-- C5 (counterexample): the id string `abc` is not a positive integer,
yet `handle_get_beat` answers with the internal-failure (500) signal —
`int(beat_id)` raises inside the blanket `try/except` — not with a
validation (400) signal as claimed. -/
theorem c5_counterexample :
    pyInt "abc" = none ∧ handle_get_beat emptyDb "abc" = .internalError := by
  decide

/-- C5 (amended): an id string that does not parse as an integer is
surfaced as the internal-failure (500) signal; a parseable id (positive
or not) with no matching row yields the not-found signal, and a
matching row is returned. -/
theorem c5_get_beat_signals (db : Db) (s : String) :
    (pyInt s = none → handle_get_beat db s = .internalError) ∧
    (∀ i, pyInt s = some i →
      (get_beat_by_id db i = none → handle_get_beat db s = .notFound) ∧
      (∀ b, get_beat_by_id db i = some b → handle_get_beat db s = .ok b)) := by
  refine ⟨fun h => ?_, fun i hi => ⟨fun h => ?_, fun b hb => ?_⟩⟩
  · unfold handle_get_beat; rw [h]
  · simp [handle_get_beat, hi, h]
  · simp [handle_get_beat, hi, hb]

/-- C5 (witness): the non-numeric id `xyz` is answered with the
internal-failure signal. -/
theorem c5_witness : handle_get_beat emptyDb "xyz" = .internalError :=
  (c5_get_beat_signals emptyDb "xyz").1 (by decide)

/-- C6: every row catalogued by a sync pass carries derived fields
satisfying the specified shape: the title concatenated with the
extension restores the file name (extension stripped), the title is the
`splitext` stem, the file type is the extension lower-cased without the
dot (the extension starts with a dot and contains no later dot), and
the slug is the title lower-cased with each space and each underscore
independently replaced by a hyphen at its original position. -/
theorem c6_derived_fields (db : Db) (entries : List String) (b : Beat)
    (hb : b ∈ (sync_beats_from_folder db (some entries)).beats) :
    b ∈ db.beats ∨
      (b.title ++ (splitext b.file_name).2 = b.file_name ∧
       b.title = (splitext b.file_name).1 ∧
       b.file_type = strLower ⟨(splitext b.file_name).2.data.drop 1⟩ ∧
       ((splitext b.file_name).2 = "" ∨
         ∃ t, (splitext b.file_name).2.data = '.' :: t) ∧
       (∀ c ∈ (splitext b.file_name).2.data.drop 1, c ≠ '.') ∧
       b.slug = slugSpec b.title) := by
  cases hGo : syncGo db (entries.filter isAudioFile) with
  | none =>
    rw [sync_eq_of_go_none hGo] at hb
    exact Or.inl hb
  | some db1 =>
    rw [sync_eq_of_go_some hGo] at hb
    rcases syncGo_mem _ db db1 hGo b hb with hin | ⟨-, ht, hs, hft, -, -, -, -⟩
    · exact Or.inl hin
    · right
      refine ⟨?_, ?_, ?_, ?_, ?_, ?_⟩
      · rw [ht]; exact splitext_append b.file_name
      · exact ht
      · exact hft
      · rcases splitextList_ext_head b.file_name.data with h | ⟨t, h⟩
        · exact Or.inl (congrArg String.mk h)
        · exact Or.inr ⟨t, h⟩
      · intro c hc
        exact splitextList_ext_tail b.file_name.data c hc
      · rw [hs, deriveSlug_eq_slugSpec, ← ht]

/-- C6 (witness): the row catalogued for `My Beat_01.MP3` satisfies the
derived-field shape. -/
theorem c6_witness :
    exampleBeat ∈ emptyDb.beats ∨
      (exampleBeat.title ++ (splitext exampleBeat.file_name).2 = exampleBeat.file_name ∧
       exampleBeat.title = (splitext exampleBeat.file_name).1 ∧
       exampleBeat.file_type = strLower ⟨(splitext exampleBeat.file_name).2.data.drop 1⟩ ∧
       ((splitext exampleBeat.file_name).2 = "" ∨
         ∃ t, (splitext exampleBeat.file_name).2.data = '.' :: t) ∧
       (∀ c ∈ (splitext exampleBeat.file_name).2.data.drop 1, c ≠ '.') ∧
       exampleBeat.slug = slugSpec exampleBeat.title) :=
  c6_derived_fields emptyDb ["My Beat_01.MP3"] exampleBeat (by decide)

/-- C7: sync considers exactly the directory entries whose name ends
with one of the five audio extensions, matched case-insensitively:
every row a pass adds passes the filter, `notes.txt` is never
catalogued, and `track.MP3` is catalogued with file type `mp3`. -/
theorem c7_extension_filter :
    (∀ (db : Db) (entries : List String) (b : Beat),
        b ∈ (sync_beats_from_folder db (some entries)).beats →
        b ∈ db.beats ∨ isAudioFile b.file_name = true) ∧
    (sync_beats_from_folder emptyDb (some ["notes.txt", "track.MP3"])).beats.map
        (fun b => (b.file_name, b.file_type)) = [("track.MP3", "mp3")] ∧
    isAudioFile "notes.txt" = false ∧ isAudioFile "track.MP3" = true := by
  refine ⟨?_, by decide, by decide, by decide⟩
  intro db entries b hb
  cases hGo : syncGo db (entries.filter isAudioFile) with
  | none =>
    rw [sync_eq_of_go_none hGo] at hb
    exact Or.inl hb
  | some db1 =>
    rw [sync_eq_of_go_some hGo] at hb
    rcases syncGo_mem _ db db1 hGo b hb with hin | ⟨hm, -, -, -, -, -, -, -⟩
    · exact Or.inl hin
    · exact Or.inr (List.of_mem_filter hm)

/-- C7 (witness): the row catalogued for `track.MP3` passes the
case-insensitive extension filter. -/
theorem c7_witness : trackBeat ∈ emptyDb.beats ∨ isAudioFile trackBeat.file_name = true :=
  c7_extension_filter.1 emptyDb ["track.MP3"] trackBeat (by decide)

/-- C8 (counterexample): the request name `../beats2/x` joined under the
configured root `/srv/beats` resolves to `/srv/beats2/x`, which lies
outside the root directory, yet the raw string-prefix guard lets it
through and the endpoint returns the file bytes — refuting the claim
that every path resolving outside the directory is rejected. -/
theorem c8_counterexample :
    resolvesOutside "/srv/beats" (abspath "/" (pjoin "/srv/beats" "../beats2/x")) = true ∧
    handle_audio_stream fs8 "/" "/srv/beats" "../beats2/x" = .ok [1, 2, 3] := by
  decide

/-- C8 (amended): whenever the absolute resolution of the joined path
does not start, as a string, with the absolute path of the audio
directory, the endpoint rejects the request with the forbidden signal
before consulting the filesystem, and no bytes are returned (the guard
is a plain string-prefix test, so sibling paths extending the root as a
string are let through). -/
theorem c8_guard (fs : String → Option (List Nat)) (cwd root file_name : String)
    (h : strStartsWith (abspath cwd (pjoin root file_name)) (abspath cwd root) = false) :
    handle_audio_stream fs cwd root file_name = .forbidden := by
  unfold handle_audio_stream
  rw [h]
  rfl

/-- C8 (witness): `../../etc/passwd` resolves to `/etc/passwd`, fails
the prefix test against `/srv/beats`, and is rejected with the
forbidden signal. -/
theorem c8_witness :
    handle_audio_stream fsEmpty "/" "/srv/beats" "../../etc/passwd" = .forbidden :=
  c8_guard fsEmpty "/" "/srv/beats" "../../etc/passwd" (by decide)

/-- C9: a sync pass is all-or-nothing — when the insert loop raises
(`syncGo` yields `none`), the rolled-back transaction leaves the store
exactly as it was, and in every case the pass either leaves the store
unchanged or is the full committed run of the loop. -/
theorem c9_all_or_nothing (db : Db) (entries : List String) :
    (syncGo db (entries.filter isAudioFile) = none →
        sync_beats_from_folder db (some entries) = db) ∧
    (sync_beats_from_folder db (some entries) = db ∨
        syncGo db (entries.filter isAudioFile) =
          some (sync_beats_from_folder db (some entries))) := by
  constructor
  · exact sync_eq_of_go_none
  · cases hGo : syncGo db (entries.filter isAudioFile) with
    | none => exact Or.inl (sync_eq_of_go_none hGo)
    | some db1 =>
      right
      rw [sync_eq_of_go_some hGo]

/-- C9 (witness): a pass over the colliding pair `x y.wav`, `x_y.wav`
fails and leaves a fresh store unchanged — the first insert is rolled
back. -/
theorem c9_witness :
    sync_beats_from_folder emptyDb (some ["x y.wav", "x_y.wav"]) = emptyDb :=
  (c9_all_or_nothing emptyDb ["x y.wav", "x_y.wav"]).1 (by decide)

/-- C10: a failure inside sync never reaches the listing — when the
directory is missing or the insert loop fails, `get_all_beats` still
returns the currently stored rows (ordered by creation time
descending) over the unchanged store. -/
theorem c10_listing_survives_sync_failure (db : Db) (dir : Option (List String))
    (h : dir = none ∨
      ∃ entries, dir = some entries ∧ syncGo db (entries.filter isAudioFile) = none) :
    get_all_beats db dir = (orderDesc db.beats, db) := by
  rcases h with rfl | ⟨entries, rfl, h⟩
  · rfl
  · unfold get_all_beats
    rw [sync_eq_of_go_none h]

/-- C10 (witness): listing over a directory whose pass fails on the
colliding pair `p q.ogg`, `p_q.ogg` still returns the stored rows of
the untouched store. -/
theorem c10_witness :
    get_all_beats emptyDb (some ["p q.ogg", "p_q.ogg"]) = (orderDesc emptyDb.beats, emptyDb) :=
  c10_listing_survives_sync_failure emptyDb (some ["p q.ogg", "p_q.ogg"])
    (Or.inr ⟨["p q.ogg", "p_q.ogg"], rfl, by decide⟩)

end AstroVault
